import Mathlib

/-!
Verification development for the beat-synchronized video pipeline.

The first part embeds the segment-planning logic of
`create_beat_synchronized_video` (src/editor.py) as pure functions over
rational timestamps.  The second part embeds the upload bookkeeping of
`TikTokUploader` (src/tiktok_uploader.py): file deletion in
`_upload_single_video`, the login gate of `upload_video`, and the
uploaded-videos tracking of `upload_multiple_videos`.
-/

deriving instance DecidableEq for Except

namespace BeatSync

/-- Which clip a planned segment is assigned to: the designated intro clip,
or position `i` of `clip_sequence` (the round-robin pool in the traversal
order chosen for the run). -/
inductive ClipRef where
  | intro : ClipRef
  | pool : Nat → ClipRef
  deriving DecidableEq, Repr

/-- A planned video segment `[start, stop)` of the audio timeline together
with its clip assignment. -/
structure Segment where
  start : ℚ
  stop : ℚ
  clip : ClipRef
  deriving DecidableEq, Repr

/-- The declared failures of the planner (spec §7 taxonomy; in the source
all three are `ValueError`s raised by `create_beat_synchronized_video`). -/
inductive PlanError where
  | emptyClipPool : PlanError
  | noBeats : PlanError
  | noIntroBoundary : PlanError
  deriving DecidableEq, Repr

/-- Lines 164–197 of src/editor.py: `next_beat_after_intro` is the first
beat `>= MIN_INTRO_DURATION` (`None` if there is none); `intro_end_time`
is then recomputed from `valid_intro_beats` and clamped with
`min(·, next_beat_after_intro)`. -/
def intro_end_time (beats : List ℚ) (minIntro : ℚ) : Option ℚ :=
  match beats.find? (fun b => decide (minIntro ≤ b)) with
  | none => none
  | some nextBeatAfterIntro =>
    let validIntroBeats := beats.filter (fun b => decide (minIntro ≤ b))
    let e0 : ℚ :=
      match validIntroBeats.head? with
      | none => max minIntro nextBeatAfterIntro
      | some v => v
    some (min e0 nextBeatAfterIntro)

/-- Lines 252–272 of src/editor.py: for `i in range(len(beats_after_intro) - 1)`
emit the segment `[tail[i], tail[i+1])` assigned to
`clip_sequence[seq_index % clip_sequence_len]`, where `seq_index` starts at
`k` and increments once per iteration. -/
def tail_segments (clipCount : Nat) (k : Nat) : List ℚ → List Segment
  | b1 :: b2 :: rest =>
    ⟨b1, b2, .pool (k % clipCount)⟩ :: tail_segments clipCount (k + 1) (b2 :: rest)
  | _ => []

/-- Lines 274–293 of src/editor.py: if `beats_after_intro` is non-empty and
its last element is `< audio_duration`, emit a final segment from that last
beat to the end of the audio, with the round-robin index continuing at
`len(tail) - 1`. -/
def final_segment (clipCount : Nat) (tail : List ℚ) (audioDuration : ℚ) : List Segment :=
  match tail.getLast? with
  | some t =>
    if t < audioDuration then
      [⟨t, audioDuration, .pool ((tail.length - 1) % clipCount)⟩]
    else []
  | none => []

/-- The segment-planning core of `create_beat_synchronized_video`
(src/editor.py, lines 145–293), abstracted from file I/O and rendering:

* `goonCount` / `zetaCount` are the sizes of the intro-clip and main-clip
  pools; the function raises `EmptyClipPoolError` when both are empty
  (line 149) and otherwise falls back to reusing the intro clip as the
  single round-robin clip when the main pool is empty (lines 232–234);
* an empty beat list raises `NoBeatsError` (line 160);
* the intro boundary is `intro_end_time` and its absence raises
  `NoIntroBoundaryError` (lines 164–167);
* `beats_after_intro` keeps the beats strictly greater than the intro
  boundary (line 245), and the output is the intro segment followed by the
  pairwise beat segments and the optional final segment. -/
def create_beat_synchronized_video (goonCount zetaCount : Nat) (beats : List ℚ)
    (audioDuration minIntro : ℚ) : Except PlanError (List Segment) :=
  if goonCount = 0 ∧ zetaCount = 0 then .error .emptyClipPool
  else if beats = [] then .error .noBeats
  else
    match intro_end_time beats minIntro with
    | none => .error .noIntroBoundary
    | some introEnd =>
      let clipCount := if zetaCount = 0 then 1 else zetaCount
      let beatsAfterIntro := beats.filter (fun b => decide (introEnd < b))
      .ok (⟨0, introEnd, .intro⟩ ::
        (tail_segments clipCount 0 beatsAfterIntro ++
          final_segment clipCount beatsAfterIntro audioDuration))

/-- Adjacent segments satisfy `stop = start` of the next segment, for every adjacent pair. -/
def chain_ok : List Segment → Bool
  | s1 :: s2 :: rest => decide (s1.stop = s2.start) && chain_ok (s2 :: rest)
  | _ => true

/-- The last segment ends exactly at `audioDuration`. -/
def last_stop_is (audioDuration : ℚ) (segs : List Segment) : Bool :=
  match segs.getLast? with
  | some s => decide (s.stop = audioDuration)
  | none => false

/-- The contiguous-coverage invariant of spec §3: the first segment starts
at 0, each segment's end equals the next segment's start, and the last
segment's end equals the audio duration. -/
def contiguous_cover (audioDuration : ℚ) (segs : List Segment) : Bool :=
  match segs.head? with
  | some s => decide (s.start = 0) && chain_ok segs && last_stop_is audioDuration segs
  | none => false

/-- Line 237 of src/editor.py chooses the traversal direction once:
`clip_sequence = clips if random.choice([True, False]) else
list(reversed(clips))`.  This maps round-robin entry `i` of
`clip_sequence` back to its position in the original `clips` list. -/
def clip_position (direction : Bool) (clipCount i : Nat) : Nat :=
  if direction then i % clipCount else clipCount - 1 - i % clipCount

/-- Resolve a clip assignment through the chosen traversal direction. -/
def resolve_clip (direction : Bool) (clipCount : Nat) : ClipRef → ClipRef
  | .intro => .intro
  | .pool i => .pool (clip_position direction clipCount i)

/-- The planner with the run's traversal-direction choice made explicit:
the single `random.choice([True, False])` draw becomes the `direction`
argument, and every pool assignment is resolved to a position in the
original clip list. -/
def plan_with_direction (direction : Bool) (goonCount zetaCount : Nat)
    (beats : List ℚ) (audioDuration minIntro : ℚ) :
    Except PlanError (List Segment) :=
  (create_beat_synchronized_video goonCount zetaCount beats audioDuration minIntro).map
    (List.map (fun s =>
      ⟨s.start, s.stop,
        resolve_clip direction (if zetaCount = 0 then 1 else zetaCount) s.clip⟩))

/-- The configuration file consumed by `detect_beats` (src/editor.py,
lines 61–72): an optional `labeled_beats` mapping (modelled as an
association list in dictionary insertion order) and an optional flat
`beats` list. -/
structure BeatConfig where
  labeledBeats : Option (List (String × List ℚ))
  beats : Option (List ℚ)

/-- The config-file branch of `detect_beats` (src/editor.py, lines 61–72):
with a `labeled_beats` key it returns the concatenation of all labeled
timestamp lists, sorted, together with the mapping; otherwise with a
`beats` key it returns that list unchanged with an empty mapping.  `none`
models falling through to audio analysis (out of scope). -/
def detect_beats (cfg : BeatConfig) : Option (List ℚ × List (String × List ℚ)) :=
  match cfg.labeledBeats with
  | some labeledBeats =>
    let allBeats := (labeledBeats.map Prod.snd).flatten
    some (List.insertionSort (· ≤ ·) allBeats, labeledBeats)
  | none =>
    match cfg.beats with
    | some bs => some (bs, [])
    | none => none

end BeatSync

namespace Uploader

/-- How the browser-automation phase of `_upload_single_video` behaves on a
given video: the upload succeeds, fails (a `return False` path), or raises
an exception (caught by the `except` clause, which also returns `False`). -/
inductive UploadOutcome where
  | success : UploadOutcome
  | failure : UploadOutcome
  | raised : UploadOutcome
  deriving DecidableEq, Repr

/-- How far the login preamble of `upload_video` / `upload_multiple_videos`
gets: `_setup_driver` fails, both cookie and manual login fail, or the
session is logged in and the upload proceeds. -/
inductive LoginPhase where
  | setupFailed : LoginPhase
  | loginFailed : LoginPhase
  | loggedIn : LoginPhase
  deriving DecidableEq, Repr

/-- The state `TikTokUploader` interacts with: the set of file paths
present on disk, the in-memory `self.uploaded_videos` set, and the lines
of the tracking file. -/
structure UploaderState where
  fileSystem : List String
  uploadedVideos : List String
  trackingFile : List String
  deriving DecidableEq, Repr

/-- Models `os.remove(video_path)`: the path disappears from the file system. -/
def remove_file (files : List String) (p : String) : List String :=
  files.filter (fun q => decide (q ≠ p))

/-- The value returned by an upload call together with the state it leaves
behind. -/
structure UploadResult where
  returned : Bool
  state : UploaderState
  deriving DecidableEq, Repr

/-- Embeds `TikTokUploader._upload_single_video` (src/tiktok_uploader.py, lines
372–497), abstracted from the browser steps: a missing file returns
`False` before the `try` block (no `finally` runs); otherwise on success
the path is added to `self.uploaded_videos` and appended to the tracking
file (lines 480–483) and `True` is returned, while a failure or a caught
exception returns `False`; in every branch that enters the `try`, the
`finally` clause deletes the video file (line 497). -/
def upload_single_video (outcome : UploadOutcome) (st : UploaderState)
    (videoPath : String) : UploadResult :=
  if videoPath ∈ st.fileSystem then
    match outcome with
    | .success =>
      ⟨true, ⟨remove_file st.fileSystem videoPath,
              st.uploadedVideos.insert videoPath,
              st.trackingFile ++ [videoPath]⟩⟩
    | .failure =>
      ⟨false, ⟨remove_file st.fileSystem videoPath,
               st.uploadedVideos, st.trackingFile⟩⟩
    | .raised =>
      ⟨false, ⟨remove_file st.fileSystem videoPath,
               st.uploadedVideos, st.trackingFile⟩⟩
  else ⟨false, st⟩

/-- Embeds `TikTokUploader.upload_video` (src/tiktok_uploader.py, lines 571–616):
when driver setup or both login methods fail it returns `False` without
reaching `_upload_single_video`; otherwise it returns the result of
`_upload_single_video`. -/
def upload_video (login : LoginPhase) (outcome : UploadOutcome)
    (st : UploaderState) (videoPath : String) : UploadResult :=
  match login with
  | .setupFailed => ⟨false, st⟩
  | .loginFailed => ⟨false, st⟩
  | .loggedIn => upload_single_video outcome st videoPath

/-- The outcome of a `upload_multiple_videos` call: the returned count, the
final state, the videos for which `_upload_single_video` was invoked, and
those it reported as successfully uploaded. -/
structure MultiResult where
  count : Nat
  state : UploaderState
  attempted : List String
  succeeded : List String
  deriving DecidableEq, Repr

/-- Models `if max_uploads is not None and uploads_count >= max_uploads` (line 677). -/
def max_reached (maxUploads : Option Nat) (count : Nat) : Bool :=
  match maxUploads with
  | some m => decide (m ≤ count)
  | none => false

/-- The upload loop of `upload_multiple_videos` (src/tiktok_uploader.py,
lines 675–689): stop when the maximum is reached, otherwise call
`_upload_single_video` on each video in turn, counting successes. -/
def run_uploads (outcome : String → UploadOutcome) (maxUploads : Option Nat) :
    List String → Nat → UploaderState → MultiResult
  | [], count, st => ⟨count, st, [], []⟩
  | v :: rest, count, st =>
    if max_reached maxUploads count then ⟨count, st, [], []⟩
    else
      let r := upload_single_video (outcome v) st v
      let nextCount := if r.returned then count + 1 else count
      let res := run_uploads outcome maxUploads rest nextCount r.state
      ⟨res.count, res.state, v :: res.attempted,
        if r.returned then v :: res.succeeded else res.succeeded⟩

/-- Embeds `TikTokUploader.upload_multiple_videos` (src/tiktok_uploader.py, lines
619–698): the directory listing is filtered to paths not in
`self.uploaded_videos` (lines 644–651); an empty list returns 0 before any
browser work; a setup or login failure returns 0 without uploading;
otherwise the loop runs. -/
def upload_multiple_videos (login : LoginPhase) (outcome : String → UploadOutcome)
    (maxUploads : Option Nat) (st : UploaderState) (dirFiles : List String) : MultiResult :=
  let videoFiles := dirFiles.filter (fun p => decide (p ∉ st.uploadedVideos))
  if videoFiles = [] then ⟨0, st, [], []⟩
  else
    match login with
    | .setupFailed => ⟨0, st, [], []⟩
    | .loginFailed => ⟨0, st, [], []⟩
    | .loggedIn => run_uploads outcome maxUploads videoFiles 0 st

/-- Embeds `TikTokUploader.__init__` (src/tiktok_uploader.py, lines 66–69): the
`self.uploaded_videos` set is loaded from the lines of the tracking file. -/
def mk_uploader_state (files trackingContents : List String) : UploaderState :=
  ⟨files, trackingContents, trackingContents⟩

end Uploader

namespace BeatSync

/-- The head of a filtered list is the first element satisfying the
predicate. -/
lemma head?_filter_eq_find? {α : Type} (p : α → Bool) :
    ∀ l : List α, (l.filter p).head? = l.find? p
  | [] => rfl
  | a :: l => by
    by_cases h : p a
    · simp [List.filter_cons, List.find?_cons, h]
    · simp only [List.filter_cons, List.find?_cons, h]
      simp [head?_filter_eq_find? p l]

/-- The recomputation of `intro_end_time` through `valid_intro_beats` and
the `min` clamp collapses to the first beat `≥ minIntro`. -/
lemma intro_end_time_eq_find? (beats : List ℚ) (minIntro : ℚ) :
    intro_end_time beats minIntro = beats.find? (fun b => decide (minIntro ≤ b)) := by
  unfold intro_end_time
  cases hf : beats.find? (fun b => decide (minIntro ≤ b)) with
  | none => rfl
  | some nb =>
    have hh : (beats.filter (fun b => decide (minIntro ≤ b))).head? = some nb := by
      rw [head?_filter_eq_find?, hf]
    simp [hh]

/-- Unfolding of the planner on inputs where it succeeds. -/
lemma create_eq_ok (goonCount zetaCount : Nat) (beats : List ℚ)
    (audioDuration minIntro e : ℚ)
    (hpool : ¬(goonCount = 0 ∧ zetaCount = 0)) (hb : beats ≠ [])
    (he : beats.find? (fun b => decide (minIntro ≤ b)) = some e) :
    create_beat_synchronized_video goonCount zetaCount beats audioDuration minIntro =
      .ok (⟨0, e, .intro⟩ ::
        (tail_segments (if zetaCount = 0 then 1 else zetaCount) 0
            (beats.filter (fun b => decide (e < b))) ++
          final_segment (if zetaCount = 0 then 1 else zetaCount)
            (beats.filter (fun b => decide (e < b))) audioDuration)) := by
  unfold create_beat_synchronized_video
  rw [if_neg hpool, if_neg hb, intro_end_time_eq_find?, he]

/-- If every element of `l1` fails `p` and `e` satisfies it, then `e` is
what `find?` returns on `l1 ++ e :: l2`. -/
lemma find?_first {α : Type} (p : α → Bool) (e : α) (he : p e) :
    ∀ l1 : List α, (∀ b ∈ l1, ¬ p b) → ∀ l2 : List α,
      (l1 ++ e :: l2).find? p = some e
  | [], _, l2 => by simp [List.find?_cons, he]
  | a :: t, h1, l2 => by
    have ha : ¬ p a := h1 a (List.mem_cons_self a t)
    simp only [List.cons_append, List.find?_cons]
    simp only [Bool.not_eq_true] at ha
    rw [ha]
    exact find?_first p e he t (fun b hb => h1 b (List.mem_cons_of_mem a hb)) l2

/-- Number of pairwise beat segments: one less than the number of beats
after the intro. -/
lemma tail_segments_length (clipCount : Nat) :
    ∀ (k : Nat) (l : List ℚ), (tail_segments clipCount k l).length = l.length - 1
  | _, [] => rfl
  | _, [_] => rfl
  | k, b1 :: b2 :: rest => by
    simp only [tail_segments, List.length_cons,
      tail_segments_length clipCount (k + 1) (b2 :: rest)]
    omega

/-- The `i`-th pairwise beat segment spans `[tail[i], tail[i+1])` and is
assigned round-robin index `(k + i) % clipCount`. -/
lemma tail_segments_get? (clipCount : Nat) :
    ∀ (k i : Nat) (l : List ℚ), i + 1 < l.length →
      (tail_segments clipCount k l).get? i =
        some ⟨l.getD i 0, l.getD (i + 1) 0, .pool ((k + i) % clipCount)⟩
  | _, i, [], h => by simp at h
  | _, i, [_], h => by simp at h
  | k, 0, b1 :: b2 :: rest, _ => by
    simp [tail_segments]
  | k, i + 1, b1 :: b2 :: rest, h => by
    have h' : i + 1 < (b2 :: rest).length := by
      simp only [List.length_cons] at h ⊢; omega
    have ih := tail_segments_get? clipCount (k + 1) i (b2 :: rest) h'
    simp only [tail_segments, List.get?_cons_succ, ih, List.getD_cons_succ]
    have : k + 1 + i = k + (i + 1) := by omega
    rw [this]

end BeatSync

namespace BeatSync

/-- C3, part of the proof: the planner fails with `NoIntroBoundaryError`
exactly when no beat reaches `minIntro`. -/
lemma create_error_noIntro_iff (goonCount zetaCount : Nat) (beats : List ℚ)
    (audioDuration minIntro : ℚ)
    (hpool : ¬(goonCount = 0 ∧ zetaCount = 0)) (hb : beats ≠ []) :
    create_beat_synchronized_video goonCount zetaCount beats audioDuration minIntro =
        .error .noIntroBoundary ↔
      beats.find? (fun b => decide (minIntro ≤ b)) = none := by
  unfold create_beat_synchronized_video
  rw [if_neg hpool, if_neg hb, intro_end_time_eq_find?]
  cases hf : beats.find? (fun b => decide (minIntro ≤ b)) <;> simp

end BeatSync

/-- C3: for every non-empty beat list (and a non-empty clip inventory, as
the planner checks clips first), (i) if `e` is the first beat `≥
min_intro_duration` — every earlier beat is below it and `e` reaches it —
then the plan succeeds and its intro segment is `[0, e)`; (ii) the planner
fails with `NoIntroBoundaryError` if and only if every beat is below
`min_intro_duration`. -/
theorem C3_intro_boundary (goonCount zetaCount : Nat) (beats : List ℚ)
    (audioDuration minIntro : ℚ)
    (hpool : ¬(goonCount = 0 ∧ zetaCount = 0)) (hb : beats ≠ []) :
    (∀ (e : ℚ) (l1 l2 : List ℚ), beats = l1 ++ e :: l2 →
      (∀ b ∈ l1, b < minIntro) → minIntro ≤ e →
      ∃ rest, BeatSync.create_beat_synchronized_video goonCount zetaCount beats
          audioDuration minIntro = .ok (⟨0, e, .intro⟩ :: rest)) ∧
    (BeatSync.create_beat_synchronized_video goonCount zetaCount beats
        audioDuration minIntro = .error .noIntroBoundary ↔
      ∀ b ∈ beats, b < minIntro) := by
  constructor
  · intro e l1 l2 hsplit h1 he
    have hfind : beats.find? (fun b => decide (minIntro ≤ b)) = some e := by
      rw [hsplit]
      exact BeatSync.find?_first _ e (by simpa using he) l1
        (fun b hb1 => by simpa using not_le.mpr (h1 b hb1)) l2
    exact ⟨_, BeatSync.create_eq_ok goonCount zetaCount beats audioDuration minIntro e
      hpool hb hfind⟩
  · rw [BeatSync.create_error_noIntro_iff goonCount zetaCount beats audioDuration
      minIntro hpool hb, List.find?_eq_none]
    constructor
    · intro h b hbmem
      have := h b hbmem
      simpa using this
    · intro h b hbmem
      simpa using not_le.mpr (h b hbmem)

/-- C3 witness: on `beats = [2, 5]` with `min_intro_duration = 4` the
first qualifying beat is `5`, so the intro segment is `[0, 5)`; and on the
spec's example `beats = [5]`, `min_intro_duration = 10` the planner fails
with `NoIntroBoundaryError`. -/
theorem C3_intro_boundary_witness :
    (∃ rest, BeatSync.create_beat_synchronized_video 1 1 [2, 5] 10 4 =
      .ok (⟨0, 5, .intro⟩ :: rest)) ∧
    BeatSync.create_beat_synchronized_video 1 1 [5] 10 10 =
      .error .noIntroBoundary :=
  ⟨(C3_intro_boundary 1 1 [2, 5] 10 4 (by decide) (by decide)).1 5 [2] []
      (by decide) (by decide) (by decide),
   (C3_intro_boundary 1 1 [5] 10 10 (by decide) (by decide)).2.mpr (by decide)⟩

/-- C5: with a non-empty clip inventory (the planner checks the clip
folders before the beats), an empty beat list fails with `NoBeatsError`,
so no segments are emitted. -/
theorem C5_no_beats (goonCount zetaCount : Nat) (audioDuration minIntro : ℚ)
    (hpool : ¬(goonCount = 0 ∧ zetaCount = 0)) :
    BeatSync.create_beat_synchronized_video goonCount zetaCount []
      audioDuration minIntro = .error .noBeats := by
  unfold BeatSync.create_beat_synchronized_video
  rw [if_neg hpool]
  rfl

/-- C5 witness: one intro clip, one main clip, empty beat list. -/
theorem C5_no_beats_witness :
    BeatSync.create_beat_synchronized_video 1 1 [] 10 2 = .error .noBeats :=
  C5_no_beats 1 1 10 2 (by decide)

/-- C6: with zero clips available in both folders, the planner fails with
`EmptyClipPoolError` on every input — the failure is returned to the
caller as a declared error, never retried or recovered. -/
theorem C6_empty_clip_pool (beats : List ℚ) (audioDuration minIntro : ℚ) :
    BeatSync.create_beat_synchronized_video 0 0 beats audioDuration minIntro =
      .error .emptyClipPool := by
  unfold BeatSync.create_beat_synchronized_video
  rw [if_pos ⟨rfl, rfl⟩]

/-- C7: the planner is deterministic once the traversal-direction draw is
fixed — two invocations with identical inputs and the same direction
choice yield the same segment sequence (the model has no other state or
effects, matching the pure-function description in spec §5). -/
theorem C7_deterministic (direction : Bool) (goonCount zetaCount : Nat)
    (beats : List ℚ) (audioDuration minIntro : ℚ)
    (out1 out2 : Except BeatSync.PlanError (List BeatSync.Segment))
    (h1 : BeatSync.plan_with_direction direction goonCount zetaCount beats
        audioDuration minIntro = out1)
    (h2 : BeatSync.plan_with_direction direction goonCount zetaCount beats
        audioDuration minIntro = out2) :
    out1 = out2 := by
  rw [← h1, ← h2]

/-- C7 witness: two runs on the worked example with the forward direction
both yield the same plan. -/
theorem C7_deterministic_witness :
    (Except.ok [⟨0, 3, .intro⟩, ⟨6, 9, .pool 0⟩, ⟨9, 10, .pool 1⟩] :
        Except BeatSync.PlanError (List BeatSync.Segment)) =
      .ok [⟨0, 3, .intro⟩, ⟨6, 9, .pool 0⟩, ⟨9, 10, .pool 1⟩] :=
  C7_deterministic true 1 2 [1, 3, 6, 9] 10 2 _ _ (by decide) (by decide)

/-- C2: with `e` the intro boundary (first beat `≥ min_intro_duration`)
and `tl` the beats strictly greater than `e`, the planner emits, after the
intro segment, exactly the pairwise segments `[tl[i], tl[i+1])` assigned
to round-robin index `i % clip_count`, and — when `tl` is non-empty and
its last beat is below the audio duration — one final segment from that
last beat to the audio duration at the continuing round-robin index. -/
theorem C2_round_robin (goonCount zetaCount : Nat) (beats tl : List ℚ)
    (audioDuration minIntro e : ℚ)
    (hzc : zetaCount ≠ 0)
    (he : beats.find? (fun b => decide (minIntro ≤ b)) = some e)
    (htl : tl = beats.filter (fun b => decide (e < b))) :
    ∃ rest,
      BeatSync.create_beat_synchronized_video goonCount zetaCount beats
          audioDuration minIntro = .ok (⟨0, e, .intro⟩ :: rest) ∧
      (∀ i, i + 1 < tl.length →
        rest.get? i = some ⟨tl.getD i 0, tl.getD (i + 1) 0, .pool (i % zetaCount)⟩) ∧
      (∀ t, tl.getLast? = some t → t < audioDuration →
        rest.get? (tl.length - 1) =
            some ⟨t, audioDuration, .pool ((tl.length - 1) % zetaCount)⟩ ∧
          rest.length = tl.length) ∧
      (∀ t, tl.getLast? = some t → ¬ t < audioDuration →
        rest.length = tl.length - 1) ∧
      (tl = [] → rest = []) := by
  have hb : beats ≠ [] := by
    intro hnil
    rw [hnil] at he
    simp at he
  have hpool : ¬(goonCount = 0 ∧ zetaCount = 0) := fun h => hzc h.2
  have hcc : (if zetaCount = 0 then 1 else zetaCount) = zetaCount := if_neg hzc
  have hok := BeatSync.create_eq_ok goonCount zetaCount beats audioDuration minIntro e
    hpool hb he
  rw [hcc, ← htl] at hok
  refine ⟨_, hok, ?_, ?_, ?_, ?_⟩
  · intro i hi
    have hlen : i < (BeatSync.tail_segments zetaCount 0 tl).length := by
      rw [BeatSync.tail_segments_length]
      omega
    rw [List.get?_append hlen, BeatSync.tail_segments_get? zetaCount 0 i tl hi]
    simp
  · intro t ht htlt
    have htlne : tl ≠ [] := by
      intro hnil
      rw [hnil] at ht
      simp at ht
    have hpos : 0 < tl.length := List.length_pos.mpr htlne
    have hfin : BeatSync.final_segment zetaCount tl audioDuration =
        [⟨t, audioDuration, .pool ((tl.length - 1) % zetaCount)⟩] := by
      simp [BeatSync.final_segment, ht, htlt]
    have hlen : (BeatSync.tail_segments zetaCount 0 tl).length = tl.length - 1 :=
      BeatSync.tail_segments_length zetaCount 0 tl
    have hidx : (BeatSync.tail_segments zetaCount 0 tl).length ≤ tl.length - 1 := by
      rw [hlen]
    constructor
    · rw [List.get?_append_right hidx, hlen, hfin]
      simp
    · rw [List.length_append, hlen, hfin]
      simp only [List.length_cons, List.length_nil]
      omega
  · intro t ht htge
    have hfin : BeatSync.final_segment zetaCount tl audioDuration = [] := by
      simp [BeatSync.final_segment, ht, htge]
    rw [List.length_append, hfin, BeatSync.tail_segments_length]
    simp
  · intro htlnil
    rw [htlnil]
    rfl

namespace BeatSync

/-- A list ending in `[a]` has last element `a`. -/
lemma getLast?_append_singleton {α : Type} (a : α) :
    ∀ l : List α, (l ++ [a]).getLast? = some a
  | [] => rfl
  | x :: xs => by
    have hx := getLast?_append_singleton a xs
    cases h : xs ++ [a] with
    | nil => exact absurd h (by simp)
    | cons y ys =>
      rw [List.cons_append, h, List.getLast?_cons_cons, ← h, hx]

/-- The last element of a list is one of its elements. -/
lemma mem_of_getLast?_eq {α : Type} :
    ∀ (l : List α) (t : α), l.getLast? = some t → t ∈ l
  | [], _, h => by simp at h
  | [b], t, h => by
    simp at h
    subst h
    simp
  | b :: c :: l, t, h => by
    rw [List.getLast?_cons_cons] at h
    exact List.mem_cons_of_mem b (mem_of_getLast?_eq (c :: l) t h)

/-- A non-empty list has a last element. -/
lemma getLast?_cons_exists {α : Type} :
    ∀ (b : α) (l : List α), ∃ t, (b :: l).getLast? = some t
  | b, [] => ⟨b, rfl⟩
  | b, c :: l => by
    obtain ⟨t, ht⟩ := getLast?_cons_exists c l
    exact ⟨t, by rw [List.getLast?_cons_cons]; exact ht⟩

/-- The pairwise beat segments followed by the final segment form a
contiguous chain: each segment ends where the next starts. -/
lemma chain_ok_tail_final (clipCount : Nat) (audioDuration : ℚ) (c : ClipRef) :
    ∀ (k : Nat) (l : List ℚ) (t : ℚ), l.getLast? = some t →
      chain_ok (tail_segments clipCount k l ++ [⟨t, audioDuration, c⟩]) = true
  | _, [], _, h => by simp at h
  | k, [b], t, h => by
    simp at h
    subst h
    rfl
  | k, b1 :: b2 :: rest, t, h => by
    have h' : (b2 :: rest).getLast? = some t := by
      rwa [List.getLast?_cons_cons] at h
    have ih := chain_ok_tail_final clipCount audioDuration c (k + 1) (b2 :: rest) t h'
    cases rest with
    | nil =>
      have hb2 : b2 = t := by simpa using h'
      subst hb2
      simp [tail_segments, chain_ok]
    | cons r1 r2 =>
      have hexp : tail_segments clipCount (k + 1) (b2 :: r1 :: r2) ++
            [(⟨t, audioDuration, c⟩ : Segment)] =
          (⟨b2, r1, .pool ((k + 1) % clipCount)⟩ : Segment) ::
            (tail_segments clipCount (k + 2) (r1 :: r2) ++ [⟨t, audioDuration, c⟩]) := by
        simp [tail_segments]
      show chain_ok ((⟨b1, b2, .pool (k % clipCount)⟩ : Segment) ::
        (tail_segments clipCount (k + 1) (b2 :: r1 :: r2) ++
          [⟨t, audioDuration, c⟩])) = true
      rw [hexp]
      simp only [chain_ok]
      rw [← hexp, ih]
      simp

/-- The first of the post-intro segments starts at the first beat after
the intro boundary. -/
lemma head_start_tail_final (clipCount : Nat) (audioDuration : ℚ) (c : ClipRef)
    (k : Nat) (b : ℚ) (l' : List ℚ) (t : ℚ)
    (ht : (b :: l').getLast? = some t) :
    ((tail_segments clipCount k (b :: l') ++
        ([⟨t, audioDuration, c⟩] : List Segment)).head?).map Segment.start = some b := by
  cases l' with
  | nil =>
    have hb : b = t := by simpa using ht
    subst hb
    simp [tail_segments]
  | cons b2 r => simp [tail_segments]

end BeatSync

/-- C1 counterexample: the input `beats = [1, 3, 6, 9]`,
`audio_duration = 10`, `min_intro_duration = 2`, one intro clip and two
main clips is valid (strictly increasing non-empty beats, positive
duration, non-negative minimum intro, non-empty pool) and the planner
succeeds, but its output `[0,3) [6,9) [9,10)` leaves the span `[3, 6)`
uncovered, so the contiguous-coverage invariant fails. -/
theorem C1_counterexample :
    List.Sorted (· < ·) ([1, 3, 6, 9] : List ℚ) ∧ (0 : ℚ) < 10 ∧ (0 : ℚ) ≤ 2 ∧
    BeatSync.create_beat_synchronized_video 1 2 [1, 3, 6, 9] 10 2 =
      .ok [⟨0, 3, .intro⟩, ⟨6, 9, .pool 0⟩, ⟨9, 10, .pool 1⟩] ∧
    BeatSync.contiguous_cover 10
      [⟨0, 3, .intro⟩, ⟨6, 9, .pool 0⟩, ⟨9, 10, .pool 1⟩] = false := by
  refine ⟨?_, by decide, by decide, by decide, by decide⟩
  decide

/-- C1 amended: on valid inputs where the planner succeeds and some beat
lies strictly after the intro boundary `e`, the output starts with the
intro segment `[0, e)`, the segments *after* the intro are contiguous
among themselves, and the last segment ends at the audio duration — but
full coverage of `[0, audio_duration)` fails: the first post-intro
segment starts at a beat `t0` strictly greater than `e`, so the span
`[e, t0)` is covered by no segment. -/
theorem C1_coverage_amended (goonCount zetaCount : Nat) (beats : List ℚ)
    (audioDuration minIntro e : ℚ) (segs : List BeatSync.Segment)
    (hsorted : List.Sorted (· < ·) beats)
    (hdur : 0 < audioDuration) (hmi : 0 ≤ minIntro)
    (hzc : zetaCount ≠ 0)
    (hlt : ∀ b ∈ beats, b < audioDuration)
    (he : beats.find? (fun b => decide (minIntro ≤ b)) = some e)
    (hok : BeatSync.create_beat_synchronized_video goonCount zetaCount beats
        audioDuration minIntro = .ok segs)
    (htl : beats.filter (fun b => decide (e < b)) ≠ []) :
    segs.head? = some ⟨0, e, .intro⟩ ∧
    BeatSync.chain_ok (segs.drop 1) = true ∧
    (∃ t0, (segs.drop 1).head?.map BeatSync.Segment.start = some t0 ∧ e < t0) ∧
    BeatSync.last_stop_is audioDuration segs = true := by
  have hb : beats ≠ [] := by
    intro hnil
    rw [hnil] at he
    simp at he
  have hpool : ¬(goonCount = 0 ∧ zetaCount = 0) := fun h => hzc h.2
  have hcc : (if zetaCount = 0 then 1 else zetaCount) = zetaCount := if_neg hzc
  have hok' := BeatSync.create_eq_ok goonCount zetaCount beats audioDuration minIntro e
    hpool hb he
  rw [hcc] at hok'
  rw [hok'] at hok
  have hsegs : segs =
      ⟨0, e, .intro⟩ ::
        (BeatSync.tail_segments zetaCount 0 (beats.filter (fun b => decide (e < b))) ++
          BeatSync.final_segment zetaCount (beats.filter (fun b => decide (e < b)))
            audioDuration) := by
    injection hok with h
    exact h.symm
  obtain ⟨b0, l', htl'⟩ : ∃ b0 l', beats.filter (fun b => decide (e < b)) = b0 :: l' := by
    cases hc : beats.filter (fun b => decide (e < b)) with
    | nil => exact absurd hc htl
    | cons x xs => exact ⟨x, xs, rfl⟩
  obtain ⟨t, ht⟩ := BeatSync.getLast?_cons_exists b0 l'
  have ht' : (beats.filter (fun b => decide (e < b))).getLast? = some t := by
    rw [htl']; exact ht
  have htmem : t ∈ beats.filter (fun b => decide (e < b)) :=
    BeatSync.mem_of_getLast?_eq _ t ht'
  have htbeats : t ∈ beats := (List.mem_filter.mp htmem).1
  have htlt : t < audioDuration := hlt t htbeats
  have hfin : BeatSync.final_segment zetaCount (beats.filter (fun b => decide (e < b)))
      audioDuration =
      [⟨t, audioDuration,
        .pool (((beats.filter (fun b => decide (e < b))).length - 1) % zetaCount)⟩] := by
    simp [BeatSync.final_segment, ht', htlt]
  have hb0mem : b0 ∈ beats.filter (fun b => decide (e < b)) := by
    rw [htl']; exact List.mem_cons_self b0 l'
  have hb0gt : e < b0 := by
    have := (List.mem_filter.mp hb0mem).2
    simpa using this
  subst hsegs
  refine ⟨rfl, ?_, ⟨b0, ?_, hb0gt⟩, ?_⟩
  · rw [List.drop_one, List.tail_cons, hfin]
    exact BeatSync.chain_ok_tail_final zetaCount audioDuration _ 0 _ t ht'
  · rw [List.drop_one, List.tail_cons, hfin, htl']
    exact BeatSync.head_start_tail_final zetaCount audioDuration _ 0 b0 l' t ht
  · unfold BeatSync.last_stop_is
    rw [hfin, ← List.cons_append, BeatSync.getLast?_append_singleton]
    simp

/-- C1 amended witness: the worked example instantiates every hypothesis,
with intro boundary `3` and first post-intro beat `6 > 3`. -/
theorem C1_coverage_amended_witness :
    [⟨(0 : ℚ), 3, .intro⟩, ⟨6, 9, .pool 0⟩,
        (⟨9, 10, .pool 1⟩ : BeatSync.Segment)].head? = some ⟨0, 3, .intro⟩ ∧
    BeatSync.chain_ok ([⟨(0 : ℚ), 3, .intro⟩, ⟨6, 9, .pool 0⟩,
        (⟨9, 10, .pool 1⟩ : BeatSync.Segment)].drop 1) = true ∧
    (∃ t0, ([⟨(0 : ℚ), 3, .intro⟩, ⟨6, 9, .pool 0⟩,
        (⟨9, 10, .pool 1⟩ : BeatSync.Segment)].drop 1).head?.map
          BeatSync.Segment.start = some t0 ∧ (3 : ℚ) < t0) ∧
    BeatSync.last_stop_is 10 [⟨(0 : ℚ), 3, .intro⟩, ⟨6, 9, .pool 0⟩,
        (⟨9, 10, .pool 1⟩ : BeatSync.Segment)] = true :=
  C1_coverage_amended 1 2 [1, 3, 6, 9] 10 2 3
    [⟨0, 3, .intro⟩, ⟨6, 9, .pool 0⟩, ⟨9, 10, .pool 1⟩]
    (by decide) (by decide) (by decide) (by decide) (by decide) (by decide)
    (by decide) (by decide)

/-- C4 counterexample: on `beats = [1, 3, 6, 9]`, `audio_duration = 10`,
`min_intro_duration = 2`, `clip_count = 2` the planner produces three
segments `[0,3)→intro, [6,9)→clip0, [9,10)→clip1`, which is not the
four-segment output `[0,3)→intro, [3,6)→clip0, [6,9)→clip1, [9,10)→clip0`
stated by the spec: the beat `3.0` is excluded from the tail by the strict
`> intro_end_time` filter, so no segment starts at `3.0`. -/
theorem C4_counterexample :
    BeatSync.create_beat_synchronized_video 1 2 [1, 3, 6, 9] 10 2 =
      .ok [⟨0, 3, .intro⟩, ⟨6, 9, .pool 0⟩, ⟨9, 10, .pool 1⟩] ∧
    (Except.ok [⟨0, 3, .intro⟩, ⟨6, 9, .pool 0⟩, ⟨9, 10, .pool 1⟩] :
        Except BeatSync.PlanError (List BeatSync.Segment)) ≠
      .ok [⟨0, 3, .intro⟩, ⟨3, 6, .pool 0⟩, ⟨6, 9, .pool 1⟩, ⟨9, 10, .pool 0⟩] := by
  exact ⟨by decide, by decide⟩

/-- C4 amended: on that input the intro boundary is `3.0` and the output
is exactly the three segments `[0,3)→intro`, `[6,9)→clip 0`,
`[9,10)→clip 1` (the round-robin indices are positions in
`clip_sequence`, so they are the same for either traversal direction). -/
theorem C4_worked_example :
    BeatSync.create_beat_synchronized_video 1 2 [1, 3, 6, 9] 10 2 =
      .ok [⟨0, 3, .intro⟩, ⟨6, 9, .pool 0⟩, ⟨9, 10, .pool 1⟩] := by
  decide

/-- C2 witness: on the worked example the tail is `[6, 9]`, giving the
pairwise segment `[6, 9)` at index 0 and the final segment `[9, 10)` at
index 1. -/
theorem C2_round_robin_witness :
    ∃ rest,
      BeatSync.create_beat_synchronized_video 1 2 [1, 3, 6, 9] 10 2 =
          .ok (⟨0, 3, .intro⟩ :: rest) ∧
      (∀ i, i + 1 < ([6, 9] : List ℚ).length →
        rest.get? i = some ⟨([6, 9] : List ℚ).getD i 0,
          ([6, 9] : List ℚ).getD (i + 1) 0, .pool (i % 2)⟩) ∧
      (∀ t, ([6, 9] : List ℚ).getLast? = some t → t < 10 →
        rest.get? (([6, 9] : List ℚ).length - 1) =
            some ⟨t, 10, .pool ((([6, 9] : List ℚ).length - 1) % 2)⟩ ∧
          rest.length = ([6, 9] : List ℚ).length) ∧
      (∀ t, ([6, 9] : List ℚ).getLast? = some t → ¬ t < 10 →
        rest.length = ([6, 9] : List ℚ).length - 1) ∧
      (([6, 9] : List ℚ) = [] → rest = []) :=
  C2_round_robin 1 2 [1, 3, 6, 9] [6, 9] 10 2 3 (by decide) (by decide) (by decide)

/-- C9: the `beats` config branch is an exact pass-through — any stored
list, even unsorted or with negative entries, is returned unchanged, so
the strictly-increasing precondition is not enforced here — while the
`labeled_beats` branch returns the sorted union of all labeled lists. -/
theorem C9_detect_beats_passthrough :
    (∀ bs : List ℚ, BeatSync.detect_beats ⟨none, some bs⟩ = some (bs, [])) ∧
    (∃ bs : List ℚ, ¬ List.Sorted (· < ·) bs ∧ (∃ b ∈ bs, b < 0) ∧
      BeatSync.detect_beats ⟨none, some bs⟩ = some (bs, [])) ∧
    (∀ (labeled : List (String × List ℚ)) (flat : Option (List ℚ)),
      ∃ allSorted : List ℚ,
        BeatSync.detect_beats ⟨some labeled, flat⟩ = some (allSorted, labeled) ∧
        List.Sorted (· ≤ ·) allSorted ∧
        allSorted.Perm ((labeled.map Prod.snd).flatten)) := by
  refine ⟨fun bs => rfl, ⟨[3, 1, 1, -2], by decide, by decide, rfl⟩,
    fun labeled flat => ⟨_, rfl, ?_, ?_⟩⟩
  · exact List.sorted_insertionSort _ _
  · exact List.perm_insertionSort _ _

/-- C9 witness: the unsorted list `[2, 1]` passes through the `beats`
branch untouched. -/
theorem C9_detect_beats_passthrough_witness :
    BeatSync.detect_beats ⟨none, some [2, 1]⟩ = some ([2, 1], []) :=
  C9_detect_beats_passthrough.1 [2, 1]

namespace Uploader

/-- After `_upload_single_video` the video path is gone from disk: the
`finally` clause removes it, and the early-return branch only runs when
the file was never there. -/
lemma upload_single_video_removes (o : UploadOutcome) (st : UploaderState)
    (p : String) : p ∉ (upload_single_video o st p).state.fileSystem := by
  unfold upload_single_video
  by_cases hmem : p ∈ st.fileSystem
  · rw [if_pos hmem]
    cases o <;> simp [remove_file, List.mem_filter]
  · rw [if_neg hmem]
    exact hmem

/-- A single upload only grows the uploaded set and the tracking file. -/
lemma upload_single_video_mono (o : UploadOutcome) (st : UploaderState)
    (p : String) :
    st.uploadedVideos ⊆ (upload_single_video o st p).state.uploadedVideos ∧
    st.trackingFile ⊆ (upload_single_video o st p).state.trackingFile := by
  unfold upload_single_video
  by_cases hmem : p ∈ st.fileSystem
  · rw [if_pos hmem]
    cases o
    · exact ⟨List.subset_insert p _, List.subset_append_left _ _⟩
    · exact ⟨List.Subset.refl _, List.Subset.refl _⟩
    · exact ⟨List.Subset.refl _, List.Subset.refl _⟩
  · rw [if_neg hmem]
    exact ⟨List.Subset.refl _, List.Subset.refl _⟩

/-- When `_upload_single_video` reports success, the path has been added
to `self.uploaded_videos` and appended to the tracking file. -/
lemma upload_single_video_success_mem (o : UploadOutcome) (st : UploaderState)
    (p : String) (h : (upload_single_video o st p).returned = true) :
    p ∈ (upload_single_video o st p).state.uploadedVideos ∧
    p ∈ (upload_single_video o st p).state.trackingFile := by
  unfold upload_single_video at h ⊢
  by_cases hmem : p ∈ st.fileSystem
  · rw [if_pos hmem] at h ⊢
    cases o
    · exact ⟨List.mem_insert_self p _, by simp⟩
    · simp at h
    · simp at h
  · rw [if_neg hmem] at h
    simp at h

/-- Every video the upload loop attempts comes from its input list. -/
lemma run_uploads_attempted_subset (outcome : String → UploadOutcome)
    (maxUploads : Option Nat) :
    ∀ (vs : List String) (count : Nat) (st : UploaderState),
      (run_uploads outcome maxUploads vs count st).attempted ⊆ vs
  | [], _, _ => by simp [run_uploads]
  | v :: rest, count, st => by
    by_cases hmax : max_reached maxUploads count = true
    · simp [run_uploads, hmax]
    · simp only [run_uploads, if_neg hmax]
      exact List.cons_subset_cons v
        (run_uploads_attempted_subset outcome maxUploads rest _ _)

/-- The upload loop only grows the uploaded set and the tracking file. -/
lemma run_uploads_mono (outcome : String → UploadOutcome)
    (maxUploads : Option Nat) :
    ∀ (vs : List String) (count : Nat) (st : UploaderState),
      st.uploadedVideos ⊆ (run_uploads outcome maxUploads vs count st).state.uploadedVideos ∧
      st.trackingFile ⊆ (run_uploads outcome maxUploads vs count st).state.trackingFile
  | [], _, _ => by
    simp only [run_uploads]
    exact ⟨List.Subset.refl _, List.Subset.refl _⟩
  | v :: rest, count, st => by
    by_cases hmax : max_reached maxUploads count = true
    · simp only [run_uploads, if_pos hmax]
      exact ⟨List.Subset.refl _, List.Subset.refl _⟩
    · simp only [run_uploads, if_neg hmax]
      have h1 := upload_single_video_mono (outcome v) st v
      have h2 := run_uploads_mono outcome maxUploads rest
        (if (upload_single_video (outcome v) st v).returned then count + 1 else count)
        (upload_single_video (outcome v) st v).state
      exact ⟨h1.1.trans h2.1, h1.2.trans h2.2⟩

/-- Every video the loop records as a success ends up in the final
uploaded set and tracking file. -/
lemma run_uploads_succeeded_recorded (outcome : String → UploadOutcome)
    (maxUploads : Option Nat) :
    ∀ (vs : List String) (count : Nat) (st : UploaderState) (p : String),
      p ∈ (run_uploads outcome maxUploads vs count st).succeeded →
        p ∈ (run_uploads outcome maxUploads vs count st).state.uploadedVideos ∧
        p ∈ (run_uploads outcome maxUploads vs count st).state.trackingFile
  | [], _, _, p => by simp [run_uploads]
  | v :: rest, count, st, p => by
    by_cases hmax : max_reached maxUploads count = true
    · simp [run_uploads, hmax]
    · simp only [run_uploads, if_neg hmax]
      by_cases hret : (upload_single_video (outcome v) st v).returned = true
      · simp only [hret, if_pos]
        intro hp
        rcases List.mem_cons.mp hp with hpv | hprest
        · rw [hpv]
          have hmem := upload_single_video_success_mem (outcome v) st v hret
          have hmono := run_uploads_mono outcome maxUploads rest (count + 1)
            (upload_single_video (outcome v) st v).state
          exact ⟨hmono.1 hmem.1, hmono.2 hmem.2⟩
        · exact run_uploads_succeeded_recorded outcome maxUploads rest (count + 1)
            (upload_single_video (outcome v) st v).state p hprest
      · simp only [hret, if_neg, Bool.false_eq_true, not_false_eq_true]
        intro hp
        exact run_uploads_succeeded_recorded outcome maxUploads rest count
          (upload_single_video (outcome v) st v).state p hp

end Uploader

/-- C8 counterexample: when driver setup fails, `upload_video` returns
`False` before ever calling `_upload_single_video`, and the video file is
still on disk afterwards — so "every call to the public `upload_video`
deletes the file" is false. -/
theorem C8_counterexample :
    (Uploader.upload_video .setupFailed .success
        ⟨["video.mp4"], [], []⟩ "video.mp4").returned = false ∧
    "video.mp4" ∈ (Uploader.upload_video .setupFailed .success
        ⟨["video.mp4"], [], []⟩ "video.mp4").state.fileSystem := by
  exact ⟨rfl, by decide⟩

/-- C8 amended: every call to `_upload_single_video` leaves no file at
`video_path` — the `finally` clause deletes it whether the upload
succeeded, failed or raised, and the early-return branch fires only when
the file was absent to begin with; `upload_video` behaves the same
whenever it reaches `_upload_single_video` (login succeeded), but when
driver setup or login fails it returns `False` with the file system
untouched, so the input file survives those calls. -/
theorem C8_file_always_deleted :
    (∀ (o : Uploader.UploadOutcome) (st : Uploader.UploaderState) (p : String),
        p ∉ (Uploader.upload_single_video o st p).state.fileSystem) ∧
    (∀ (o : Uploader.UploadOutcome) (st : Uploader.UploaderState) (p : String),
        p ∉ (Uploader.upload_video .loggedIn o st p).state.fileSystem) ∧
    (∀ (o : Uploader.UploadOutcome) (st : Uploader.UploaderState) (p : String),
        Uploader.upload_video .setupFailed o st p = ⟨false, st⟩ ∧
        Uploader.upload_video .loginFailed o st p = ⟨false, st⟩) :=
  ⟨Uploader.upload_single_video_removes,
   fun o st p => Uploader.upload_single_video_removes o st p,
   fun _ _ _ => ⟨rfl, rfl⟩⟩

/-- C8 amended witness: a failed upload of an existing file still deletes
it. -/
theorem C8_file_always_deleted_witness :
    "v.mp4" ∉ (Uploader.upload_single_video .failure
      ⟨["v.mp4"], [], []⟩ "v.mp4").state.fileSystem :=
  C8_file_always_deleted.1 .failure ⟨["v.mp4"], [], []⟩ "v.mp4"

/-- C10: (i) `upload_multiple_videos` never attempts a video whose path is
in `self.uploaded_videos` at call time; (ii) every video the call reports
as successfully uploaded is in the final uploaded set and tracking file;
(iii) hence for two sequential invocations whose uploaders share the
tracking file — the second is constructed from the tracking file the first
left behind — no video successfully uploaded by the first is ever
attempted by the second. -/
theorem C10_no_reupload :
    (∀ (login : Uploader.LoginPhase) (outcome : String → Uploader.UploadOutcome)
        (maxUploads : Option Nat) (st : Uploader.UploaderState)
        (dirFiles : List String) (p : String),
        p ∈ (Uploader.upload_multiple_videos login outcome maxUploads st
            dirFiles).attempted →
          p ∉ st.uploadedVideos) ∧
    (∀ (login : Uploader.LoginPhase) (outcome : String → Uploader.UploadOutcome)
        (maxUploads : Option Nat) (st : Uploader.UploaderState)
        (dirFiles : List String) (p : String),
        p ∈ (Uploader.upload_multiple_videos login outcome maxUploads st
            dirFiles).succeeded →
          p ∈ (Uploader.upload_multiple_videos login outcome maxUploads st
            dirFiles).state.uploadedVideos ∧
          p ∈ (Uploader.upload_multiple_videos login outcome maxUploads st
            dirFiles).state.trackingFile) ∧
    (∀ (outcome1 outcome2 : String → Uploader.UploadOutcome)
        (login2 : Uploader.LoginPhase) (maxUploads1 maxUploads2 : Option Nat)
        (files1 files2 trackingContents dirFiles1 dirFiles2 : List String)
        (p : String),
        p ∈ (Uploader.upload_multiple_videos .loggedIn outcome1 maxUploads1
            (Uploader.mk_uploader_state files1 trackingContents)
            dirFiles1).succeeded →
          p ∉ (Uploader.upload_multiple_videos login2 outcome2 maxUploads2
            (Uploader.mk_uploader_state files2
              (Uploader.upload_multiple_videos .loggedIn outcome1 maxUploads1
                (Uploader.mk_uploader_state files1 trackingContents)
                dirFiles1).state.trackingFile)
            dirFiles2).attempted) := by
  have part1 : ∀ (login : Uploader.LoginPhase)
      (outcome : String → Uploader.UploadOutcome)
      (maxUploads : Option Nat) (st : Uploader.UploaderState)
      (dirFiles : List String) (p : String),
      p ∈ (Uploader.upload_multiple_videos login outcome maxUploads st
          dirFiles).attempted → p ∉ st.uploadedVideos := by
    intro login outcome maxUploads st dirFiles p hp
    unfold Uploader.upload_multiple_videos at hp
    by_cases hvf : dirFiles.filter (fun q => decide (q ∉ st.uploadedVideos)) = []
    · rw [if_pos hvf] at hp
      simp at hp
    · rw [if_neg hvf] at hp
      cases login with
      | setupFailed => simp at hp
      | loginFailed => simp at hp
      | loggedIn =>
        have hsub := Uploader.run_uploads_attempted_subset outcome maxUploads
          (dirFiles.filter (fun q => decide (q ∉ st.uploadedVideos))) 0 st
        have hmem := hsub hp
        have := (List.mem_filter.mp hmem).2
        simpa using this
  have part2 : ∀ (login : Uploader.LoginPhase)
      (outcome : String → Uploader.UploadOutcome)
      (maxUploads : Option Nat) (st : Uploader.UploaderState)
      (dirFiles : List String) (p : String),
      p ∈ (Uploader.upload_multiple_videos login outcome maxUploads st
          dirFiles).succeeded →
        p ∈ (Uploader.upload_multiple_videos login outcome maxUploads st
          dirFiles).state.uploadedVideos ∧
        p ∈ (Uploader.upload_multiple_videos login outcome maxUploads st
          dirFiles).state.trackingFile := by
    intro login outcome maxUploads st dirFiles p hp
    unfold Uploader.upload_multiple_videos at hp ⊢
    by_cases hvf : dirFiles.filter (fun q => decide (q ∉ st.uploadedVideos)) = []
    · rw [if_pos hvf] at hp
      simp at hp
    · rw [if_neg hvf] at hp ⊢
      cases login with
      | setupFailed => simp at hp
      | loginFailed => simp at hp
      | loggedIn =>
        exact Uploader.run_uploads_succeeded_recorded outcome maxUploads
          (dirFiles.filter (fun q => decide (q ∉ st.uploadedVideos))) 0 st p hp
  refine ⟨part1, part2, ?_⟩
  intro outcome1 outcome2 login2 maxUploads1 maxUploads2 files1 files2
    trackingContents dirFiles1 dirFiles2 p hp hp2
  have hrec := part2 .loggedIn outcome1 maxUploads1
    (Uploader.mk_uploader_state files1 trackingContents) dirFiles1 p hp
  have hnot := part1 login2 outcome2 maxUploads2
    (Uploader.mk_uploader_state files2
      (Uploader.upload_multiple_videos .loggedIn outcome1 maxUploads1
        (Uploader.mk_uploader_state files1 trackingContents)
        dirFiles1).state.trackingFile)
    dirFiles2 p hp2
  exact hnot hrec.2

/-- C10 witness: a first session uploads `a.mp4` successfully and records
it; a second session constructed from the resulting tracking file never
attempts `a.mp4` again. -/
theorem C10_no_reupload_witness :
    "a.mp4" ∉ (Uploader.upload_multiple_videos .loggedIn (fun _ => .success)
      none
      (Uploader.mk_uploader_state ["a.mp4"]
        (Uploader.upload_multiple_videos .loggedIn (fun _ => .success) none
          (Uploader.mk_uploader_state ["a.mp4"] []) ["a.mp4"]).state.trackingFile)
      ["a.mp4"]).attempted :=
  C10_no_reupload.2.2 (fun _ => .success) (fun _ => .success) .loggedIn none none
    ["a.mp4"] ["a.mp4"] [] ["a.mp4"] ["a.mp4"] "a.mp4" (by decide)
